import Mathlib

/-!
Shallow embedding of `src/ShuntingYard.js` (shunting-yard infix parser and
RPN evaluator).  JavaScript numbers are modelled by an explicit value type:
rationals for the numeric results that the default operator table produces
on exactly representable inputs, together with the NaN and undefined
sentinels that the code can put on the operand stack.  The `Operator`
descriptor class lives in `./Operator`, a module that is imported by the
source file but is not part of the sources; its comparison methods are
modelled from the spec (section 4.1) and its field layout from the
constructor calls in `ShuntingYard.js` and the spec's data model.
-/

namespace ShuntingYardJS

/-- A runtime value on the evaluator's operand stack: a (rational) number,
the NaN sentinel, the undefined value, or a raw string literal. -/
inductive Value where
  | num (q : ℚ)
  | nan
  | undef
  | str (s : String)
  deriving DecidableEq, Repr

/-- Decidable equality for `Except`, so that concrete runs of the parser
and evaluator can be checked by `decide`. -/
instance {ε α : Type} [DecidableEq ε] [DecidableEq α] : DecidableEq (Except ε α) := fun x y =>
  match x, y with
  | Except.ok a, Except.ok b =>
      if h : a = b then Decidable.isTrue (congrArg Except.ok h)
      else Decidable.isFalse (fun hh => h (Except.ok.inj hh))
  | Except.error a, Except.error b =>
      if h : a = b then Decidable.isTrue (congrArg Except.error h)
      else Decidable.isFalse (fun hh => h (Except.error.inj hh))
  | Except.ok _, Except.error _ => Decidable.isFalse (fun hh => Except.noConfusion hh)
  | Except.error _, Except.ok _ => Decidable.isFalse (fun hh => Except.noConfusion hh)

/-- JS argument access: a parameter with no matching argument is `undefined`
(`fn.apply(this, args)` pads missing parameters). -/
def arg (args : List Value) (i : Nat) : Value :=
  args.getD i Value.undef

/-- JS `a + b` restricted to numbers: any non-numeric operand yields NaN.
(The string-concatenation coercions of JS `+` are outside the numeric
model; no claim evaluates the default operators on strings.) -/
def jsAdd : Value → Value → Value
  | Value.num a, Value.num b => Value.num (a + b)
  | _, _ => Value.nan

/-- JS `a - b` on numbers; `undefined`/non-numeric operands give NaN,
exactly as `5 - undefined` is NaN in JS. -/
def jsSub : Value → Value → Value
  | Value.num a, Value.num b => Value.num (a - b)
  | _, _ => Value.nan

/-- JS `a * b` on numbers; non-numeric operands give NaN. -/
def jsMul : Value → Value → Value
  | Value.num a, Value.num b => Value.num (a * b)
  | _, _ => Value.nan

/-- JS `a / b` on numbers.  Division by zero yields a signed infinity or
NaN in JS; infinities are outside the rational model, so that case maps to
NaN here (no claim divides by zero). -/
def jsDiv : Value → Value → Value
  | Value.num a, Value.num b => if b = 0 then Value.nan else Value.num (a / b)
  | _, _ => Value.nan

/-- JS `Math.pow(a, b)` restricted to the exactly representable cases: an
integer exponent.  `Math.pow(0, negative)` is Infinity in JS and a
non-integer exponent is irrational in general; both map to NaN here (no
claim uses them). -/
def jsPow : Value → Value → Value
  | Value.num a, Value.num b =>
      if b.den = 1 then
        if 0 ≤ b.num then Value.num (a ^ b.num.toNat)
        else if a = 0 then Value.nan
        else Value.num ((a ^ b.num.natAbs)⁻¹)
      else Value.nan
  | _, _ => Value.nan

/-- Digit accumulation for the numeric parse. -/
def digitsToNat (ds : List Char) : Nat :=
  ds.foldl (fun n c => 10 * n + (c.toNat - Char.toNat '0')) 0

/-- JS `parseFloat` on the decimal forms the tokenizer can produce: skip
leading spaces, an optional sign, then the longest prefix of digits with
an optional fractional part; no valid prefix gives NaN.  Exponent
notation and the `Infinity` literal are outside the rational model and
unused by every claim. -/
def jsParseFloat (s : String) : Value :=
  let cs := s.data.dropWhile (fun c => c = ' ')
  let sgn : ℚ := match cs with
    | '-' :: _ => -1
    | _ => 1
  let cs2 := match cs with
    | '-' :: rest => rest
    | '+' :: rest => rest
    | _ => cs
  let intPart := cs2.takeWhile Char.isDigit
  let rest := cs2.dropWhile Char.isDigit
  let fracPart := match rest with
    | '.' :: r => r.takeWhile Char.isDigit
    | _ => []
  if intPart.isEmpty && fracPart.isEmpty then Value.nan
  else
    Value.num (sgn * ((digitsToNat intPart : ℚ) +
      (digitsToNat fracPart : ℚ) / (10 ^ fracPart.length)))

/-- Modelled from the spec: the Operator Descriptor record (the `./Operator`
module imported by `ShuntingYard.js` is not among the sources).  Field
layout follows the constructor calls in `ShuntingYard.js`
(`new Operator(symbol, precedence, associativity, arity, behavior)`) and
the spec's data model: `params` is the arity read by `resolveRpn` as
`op.params`, `method` the behavior read as `op.method`. -/
structure Operator where
  symbol : String
  precedence : Int
  assoc : String
  params : Nat
  method : List Value → Value

/-- Modelled from the spec: `isLeftAssociative()` is true iff the
associativity is left (spec section 4.1); the source calls it `leftAssoc`. -/
def Operator.leftAssoc (o : Operator) : Bool :=
  o.assoc == "left"

/-- Modelled from the spec: `lessThen(other)` is true iff this descriptor's
precedence is strictly less than the other's (spec section 4.1). -/
def Operator.lessThen (a b : Operator) : Bool :=
  decide (a.precedence < b.precedence)

/-- Modelled from the spec: `lessThenEqual(other)` is true iff this
descriptor's precedence is less than or equal to the other's
(spec section 4.1). -/
def Operator.lessThenEqual (a b : Operator) : Bool :=
  decide (a.precedence ≤ b.precedence)

/-- Instance state of the `ShuntingYard` class: the operator and function
tables (JS objects, modelled as association lists in key-insertion order,
keys unique) and the raw-literal flag `parse_raw`. -/
structure ShuntingYard where
  operators : List (String × Operator)
  functions : List (String × Operator)
  parse_raw : Bool

/-- Default `'+'` descriptor: `new Operator('+', 2, 'left', 2, (a, b) => a + b)`. -/
def opAdd : Operator :=
  ⟨"+", 2, "left", 2, fun args => jsAdd (arg args 0) (arg args 1)⟩

/-- Default `'-'` descriptor: `new Operator('-', 2, 'left', 2, (a, b) => a - b)`. -/
def opSub : Operator :=
  ⟨"-", 2, "left", 2, fun args => jsSub (arg args 0) (arg args 1)⟩

/-- Default `'*'` descriptor: `new Operator('*', 3, 'left', 2, (a, b) => a * b)`. -/
def opMul : Operator :=
  ⟨"*", 3, "left", 2, fun args => jsMul (arg args 0) (arg args 1)⟩

/-- Default `'/'` descriptor: `new Operator('/', 3, 'left', 2, (a, b) => a / b)`. -/
def opDiv : Operator :=
  ⟨"/", 3, "left", 2, fun args => jsDiv (arg args 0) (arg args 1)⟩

/-- Default `'^'` descriptor: `new Operator('^', 4, 'right', 2, (a, b) => Math.pow(a, b))`. -/
def opPow : Operator :=
  ⟨"^", 4, "right", 2, fun args => jsPow (arg args 0) (arg args 1)⟩

/-- The instance built by the constructor with no options: the default
operator table in literal key order, no functions, `parse_raw` false. -/
def defaultSY : ShuntingYard :=
  ⟨[("+", opAdd), ("-", opSub), ("*", opMul), ("/", opDiv), ("^", opPow)],
   [], false⟩

/-- `isLeftPara(token)`: `token === '('`. -/
def isLeftPara (token : String) : Bool :=
  token == "("

/-- `isRightPara(token)`: `token === ')'`. -/
def isRightPara (token : String) : Bool :=
  token == ")"

/-- `isOperator(token)`: key membership in the operator table.  The source
tests `Object.keys(this.operators).indexOf(token) !== -1`; for a JS object
this coincides with lookup success. -/
def ShuntingYard.isOperator (sy : ShuntingYard) (token : String) : Bool :=
  (sy.operators.lookup token).isSome

/-- `isFunction(token)`: key membership in the function table. -/
def ShuntingYard.isFunction (sy : ShuntingYard) (token : String) : Bool :=
  (sy.functions.lookup token).isSome

/-- `parse` input: a raw string or a pre-tokenized ordered sequence
(the source checks `typeof(str) !== "string"`). -/
inductive Input where
  | ofString (s : String)
  | ofTokens (ts : List String)

/-- The `op_tokens` list of `parse`: operator keys followed by function
keys, in registration order. -/
def opTokens (sy : ShuntingYard) : List String :=
  sy.operators.map Prod.fst ++ sy.functions.map Prod.fst

/-- The token-matching `for` loop of `parse`: starting from the single
character at the scan position, replace it with the first entry of
`op_tokens` that is a prefix of the remaining input, and stop there. -/
def matchTokenGo (rest : List Char) : List String → String → String
  | [], token => token
  | nit :: more, token =>
      if nit.data.isPrefixOf rest then nit else matchTokenGo rest more token

/-- One token extraction at a string position: the default token is the
single character `c`; the `for` loop may replace it with a registered
symbol (first match in `op_tokens` order). -/
def matchToken (opts : List String) (c : Char) (cs : List Char) : String :=
  matchTokenGo (c :: cs) opts (String.mk [c])

/-- String-mode scan of `parse`: extract a token, advance by its length,
repeat.  Structural fuel equal to the input length bounds the iteration
count (every step consumes at least one character).  When a registered
symbol is the empty string the JS loop never advances and spins forever;
that branch returns the tokens scanned so far, and is unreachable for
tables whose symbols are all nonempty. -/
def tokenizeGo (opts : List String) : Nat → List Char → List String
  | 0, _ => []
  | _ + 1, [] => []
  | fuel + 1, c :: cs =>
      let token := matchToken opts c cs
      if token.length = 0 then []
      else token :: tokenizeGo opts fuel (List.drop (token.length - 1) cs)

/-- Token extraction for both entry modes of `parse`, including the
discard of tokens equal to a single space (line `if (token === ' ')
continue`, which runs in both modes).  Token extraction reads no parser
state, so it factors out of the interleaved loop. -/
def tokenize (sy : ShuntingYard) : Input → List String
  | Input.ofString s =>
      (tokenizeGo (opTokens sy) s.length s.data).filter (fun t => t != " ")
  | Input.ofTokens ts => ts.filter (fun t => t != " ")

/-- The two `SyntaxError` kinds thrown by `parse`. -/
inductive ParseError where
  | tooManyClosing
  | tooManyOpening
  deriving DecidableEq, Repr

/-- The mutable locals of one `parse` call: `output`, `stack` (head is the
top, i.e. the end of the JS array), the pending `sign`, and `lastToken`
(`none` models the initial `undefined`). -/
structure PState where
  output : List String
  stack : List String
  sign : Option String
  lastToken : Option String
  deriving DecidableEq, Repr

/-- The parser's test `!lastToken || lastToken === '('`: JS falsiness makes
it true for `undefined` and for the empty string. -/
def prevEmptyB : Option String → Bool
  | none => true
  | some lt => lt == "" || lt == "("

/-- The literal-branch test `!lastToken || isLeftPara(lastToken) ||
isOperator(lastToken)` deciding between a new output entry and
concatenation onto the last one. -/
def startNewB (sy : ShuntingYard) : Option String → Bool
  | none => true
  | some lt => lt == "" || isLeftPara lt || sy.isOperator lt

/-- `output[output.length - 1] += token`.  On an empty array the JS
statement writes to index `-1`, which leaves the array contents and length
unchanged; the empty case therefore returns the list unmodified. -/
def appendLast : List String → String → List String
  | [], _ => []
  | [x], token => [x ++ token]
  | x :: y :: ys, token => x :: appendLast (y :: ys) token

/-- The right-parenthesis pop loop
`while ((operator = stack.pop()) && !isLeftPara(operator))`: popped
operators other than function markers are emitted; the loop stops at a
popped left parenthesis (discarded); an exhausted stack pops `undefined`,
which is falsy, and `parse` then throws the closing-parenthesis error.  A
popped empty string is also falsy in JS, so it ends the loop with no
error; that quirk is reachable only when an empty symbol is registered. -/
def popCloseGo (sy : ShuntingYard) (output : List String) :
    List String → Except ParseError (List String × List String)
  | [] => Except.error ParseError.tooManyClosing
  | op :: rest =>
      if op = "" then Except.ok (output, rest)
      else if isLeftPara op then Except.ok (output, rest)
      else if sy.isFunction op then popCloseGo sy output rest
      else popCloseGo sy (output ++ [op]) rest

/-- Loop condition of the operator branch, for incoming descriptor
`thisOp` and stack top `top`: the top must itself be a registered operator
(`if (!operator || !thisOperator) break`), and either the incoming
operator is left-associative with precedence less than or equal to the
top's, or its precedence is strictly less than the top's. -/
def shouldPop (sy : ShuntingYard) (thisOp : Operator) (top : String) : Bool :=
  match sy.operators.lookup top with
  | none => false
  | some operator =>
      (thisOp.leftAssoc && thisOp.lessThenEqual operator) || thisOp.lessThen operator

/-- The operator branch's `while (stack.length)` loop: pop qualifying tops
to the output queue, stop at the first top that does not qualify. -/
def popOpsGo (sy : ShuntingYard) (thisOp : Operator) :
    List String → List String → List String × List String
  | output, [] => (output, [])
  | output, top :: rest =>
      if shouldPop sy thisOp top then popOpsGo sy thisOp (output ++ [top]) rest
      else (output, top :: rest)

/-- One iteration of the `parse` loop on an extracted (non-space) token:
fold a pending sign into the token, then dispatch on the token class in
source order — left parenthesis, function name, right parenthesis,
registered operator (with the sign-capture short-circuit `sign = token;
continue`, which skips the `lastToken` update), literal.  The operator
test `isOperator(token)` and the loop's `this.operators[token]` lookup
coincide for a JS object, so the branch is keyed on the lookup. -/
def parseStep (sy : ShuntingYard) (st : PState) (rawToken : String) :
    Except ParseError PState :=
  let token := match st.sign with
    | some sg => sg ++ rawToken
    | none => rawToken
  if isLeftPara token then
    Except.ok ⟨st.output, token :: st.stack, none, some token⟩
  else if sy.isFunction token then
    Except.ok ⟨st.output, token :: st.stack, none, some token⟩
  else if isRightPara token then
    match popCloseGo sy st.output st.stack with
    | Except.error e => Except.error e
    | Except.ok (out, stk) => Except.ok ⟨out, stk, none, some token⟩
  else
    match sy.operators.lookup token with
    | some thisOp =>
        if prevEmptyB st.lastToken then
          Except.ok ⟨st.output, st.stack, some token, st.lastToken⟩
        else
          let res := popOpsGo sy thisOp st.output st.stack
          Except.ok ⟨res.1, token :: res.2, none, some token⟩
    | none =>
        if startNewB sy st.lastToken then
          Except.ok ⟨st.output ++ [token], st.stack, none, some token⟩
        else
          Except.ok ⟨appendLast st.output token, st.stack, none, some token⟩

/-- The `while (i < str.length)` loop of `parse`, over the extracted
tokens. -/
def parseLoop (sy : ShuntingYard) : PState → List String → Except ParseError PState
  | st, [] => Except.ok st
  | st, t :: ts =>
      match parseStep sy st t with
      | Except.error e => Except.error e
      | Except.ok st2 => parseLoop sy st2 ts

/-- The final `while (stack.length)` drain of `parse`: every remaining
stack entry is emitted to the output queue, and a remaining left
parenthesis throws the opening-parenthesis error. -/
def drainGo : List String → List String → Except ParseError (List String)
  | output, [] => Except.ok output
  | output, t :: rest =>
      if isLeftPara t then Except.error ParseError.tooManyOpening
      else drainGo (output ++ [t]) rest

/-- `parse(str)`: run the interleaved tokenize/parse loop from the empty
state, then drain the operator stack. -/
def ShuntingYard.parse (sy : ShuntingYard) (inp : Input) :
    Except ParseError (List String) :=
  match parseLoop sy ⟨[], [], none, none⟩ (tokenize sy inp) with
  | Except.error e => Except.error e
  | Except.ok st => drainGo st.output st.stack

/-- `this.operators[arr[i]] || this.functions[arr[i]]`: operator lookup
first, function lookup as the fallback (an Operator object is always
truthy). -/
def opLookup (sy : ShuntingYard) (t : String) : Option Operator :=
  match sy.operators.lookup t with
  | some o => some o
  | none => sy.functions.lookup t

/-- One iteration of `resolveRpn`: a token with a descriptor runs
`stack.push(op.method.apply(this, stack.splice(-op.params)))` — JS
`splice(-n)` with the delete count omitted removes the last `n` elements
(all of them when fewer than `n` are present, and the whole array when
`n` is `0`, since `-0` is `0`) and returns them in their original order.
Any other token is a literal and is pushed raw or numerically parsed
according to `parse_raw`. -/
def resolveStep (sy : ShuntingYard) (stack : List Value) (t : String) : List Value :=
  match opLookup sy t with
  | some op =>
      if op.params = 0 then [op.method stack]
      else
        stack.take (stack.length - op.params) ++
          [op.method (stack.drop (stack.length - op.params))]
  | none =>
      stack ++ [if sy.parse_raw then Value.str t else jsParseFloat t]

/-- The operand stack left by the `resolveRpn` loop. -/
def rpnStack (sy : ShuntingYard) (arr : List String) : List Value :=
  arr.foldl (resolveStep sy) []

/-- `resolveRpn(arr)`: run the stack machine and `return stack[0]` — the
bottom-most element, or the undefined value when the stack is empty. -/
def ShuntingYard.resolveRpn (sy : ShuntingYard) (arr : List String) : Value :=
  (rpnStack sy arr).headD Value.undef

/-- `resolve(str) = resolveRpn(parse(str))`; a parse error propagates. -/
def ShuntingYard.resolve (sy : ShuntingYard) (inp : Input) :
    Except ParseError Value :=
  match sy.parse inp with
  | Except.error e => Except.error e
  | Except.ok arr => Except.ok (sy.resolveRpn arr)

/-! ### Configurations used by the concrete checks -/

/-- A one-argument function descriptor registered under the name `f`. -/
def fDouble : Operator :=
  ⟨"f", 0, "left", 1, fun args => jsMul (Value.num 2) (arg args 0)⟩

/-- The default instance extended with the function `f`. -/
def cfgF : ShuntingYard :=
  ⟨defaultSY.operators, [("f", fDouble)], false⟩

/-- A two-character operator symbol registered after `+`. -/
def opPlusPlus : Operator :=
  ⟨"++", 2, "left", 2, fun args => jsAdd (arg args 0) (arg args 1)⟩

/-- A table where both `+` and the longer symbol `++` are registered, `+`
first. -/
def cfg2 : ShuntingYard :=
  ⟨[("+", opAdd), ("++", opPlusPlus)], [], false⟩

/-- A table where the same symbol `+` is registered both as an operator
and as a function. -/
def cfgBoth : ShuntingYard :=
  ⟨[("+", opAdd)], [("+", opAdd)], false⟩

/-- The default instance with the raw-literal flag enabled. -/
def rawSY : ShuntingYard :=
  ⟨defaultSY.operators, [], true⟩

/-! ### Definitions written from the spec's words, for comparison -/

/-- Modelled from the spec: the tokenizer the spec describes — "among all
registered operator and function symbols, find the longest symbol that is
a prefix of the remaining input", ties broken by registration order.
Written from the spec's words, to be compared with `matchToken`, the
matcher the source implements. -/
def specLongestMatch (opts : List String) (rest : List Char) : Option String :=
  (opts.filter (fun nit => nit.data.isPrefixOf rest)).foldl
    (fun acc nit =>
      match acc with
      | none => some nit
      | some best => if best.length < nit.length then some nit else some best)
    none

/-- Modelled from the spec: pre-tokenized entry as the spec describes it —
"skips symbol-matching and whitespace handling, treating each element as
one opaque token": every element of the sequence, a single space
included, is fed to the parser state machine.  Written from the spec's
words, to be compared with `parse` on `Input.ofTokens`. -/
def specParsePretokenized (sy : ShuntingYard) (ts : List String) :
    Except ParseError (List String) :=
  match parseLoop sy ⟨[], [], none, none⟩ ts with
  | Except.error e => Except.error e
  | Except.ok st => drainGo st.output st.stack

/-! ### General lemmas about the embedded code -/

/-- A successful association-list lookup means the key is among the
table's keys. -/
theorem mem_keys_of_lookup (l : List (String × Operator)) (t : String)
    (op : Operator) (h : l.lookup t = some op) : t ∈ l.map Prod.fst := by
  induction l with
  | nil => simp [List.lookup] at h
  | cons kv rest ih =>
      obtain ⟨k, v⟩ := kv
      rw [List.lookup_cons] at h
      by_cases hk : t == k
      · have : t = k := by simpa using hk
        simp [this]
      · simp [hk] at h
        exact List.mem_cons_of_mem _ (ih h)

/-- A key found in the default operator table is one of the five default
symbols. -/
theorem default_lookup_mem {t : String} {op : Operator}
    (h : defaultSY.operators.lookup t = some op) :
    t = "+" ∨ t = "-" ∨ t = "*" ∨ t = "/" ∨ t = "^" := by
  have hm := mem_keys_of_lookup _ _ _ h
  simpa [defaultSY] using hm

/-- The token-matching loop returns the first registered symbol that is a
prefix of the remaining input, and the default token when none is. -/
theorem matchTokenGo_eq (rest : List Char) :
    ∀ (opts : List String) (d : String),
      matchTokenGo rest opts d =
        (opts.find? (fun nit => nit.data.isPrefixOf rest)).getD d := by
  intro opts
  induction opts with
  | nil => intro d; simp [matchTokenGo, List.find?]
  | cons nit more ih =>
      intro d
      by_cases h : nit.data.isPrefixOf rest
      · simp [matchTokenGo, h, List.find?_cons_of_pos _ h]
      · have hb : ¬(nit.data.isPrefixOf rest = true) := by simpa using h
        simp only [matchTokenGo, if_neg hb]
        have hfind : List.find? (fun s => s.data.isPrefixOf rest) (nit :: more) =
            List.find? (fun s => s.data.isPrefixOf rest) more := by
          simp [List.find?_cons, hb]
        rw [hfind]
        exact ih d

/-- The operator branch's pop loop emits the longest prefix of the stack
whose entries all satisfy the pop condition, and leaves the rest. -/
theorem popOpsGo_eq (sy : ShuntingYard) (thisOp : Operator) :
    ∀ (stack output : List String),
      popOpsGo sy thisOp output stack =
        (output ++ stack.takeWhile (shouldPop sy thisOp),
         stack.dropWhile (shouldPop sy thisOp)) := by
  intro stack
  induction stack with
  | nil => intro output; simp [popOpsGo]
  | cons top rest ih =>
      intro output
      by_cases h : shouldPop sy thisOp top
      · rw [popOpsGo, if_pos h, ih, List.takeWhile_cons_of_pos h,
          List.dropWhile_cons_of_pos h]
        simp
      · rw [popOpsGo, if_neg h, List.takeWhile_cons_of_neg h,
          List.dropWhile_cons_of_neg h, List.append_nil]

/-- The right-parenthesis pop loop, on a stack whose visible part holds
neither a left parenthesis nor an empty entry, emits exactly the
non-function entries above the first left parenthesis, in pop order, and
removes everything up to and including that parenthesis. -/
theorem popCloseGo_split (sy : ShuntingYard) :
    ∀ (pre : List String) (output rest : List String),
      "(" ∉ pre → "" ∉ pre →
      popCloseGo sy output (pre ++ "(" :: rest) =
        Except.ok (output ++ pre.filter (fun t => !(sy.isFunction t)), rest) := by
  intro pre
  induction pre with
  | nil => intro output rest _ _; simp [popCloseGo, isLeftPara]
  | cons p pre ih =>
      intro output rest h1 h2
      have hp1 : p ≠ "(" := fun hh => h1 (by simp [hh])
      have hp2 : p ≠ "" := fun hh => h2 (by simp [hh])
      have hlp : ¬(isLeftPara p = true) := by simp [isLeftPara, hp1]
      by_cases hf : sy.isFunction p
      · rw [List.cons_append, popCloseGo, if_neg hp2, if_neg hlp, if_pos hf,
          ih output rest (fun hh => h1 (List.mem_cons_of_mem _ hh))
            (fun hh => h2 (List.mem_cons_of_mem _ hh))]
        simp [List.filter_cons, hf]
      · rw [List.cons_append, popCloseGo, if_neg hp2, if_neg hlp, if_neg hf,
          ih (output ++ [p]) rest (fun hh => h1 (List.mem_cons_of_mem _ hh))
            (fun hh => h2 (List.mem_cons_of_mem _ hh))]
        simp [List.filter_cons, hf]

/-- The right-parenthesis pop loop raises the closing-parenthesis error
exactly when no left parenthesis is on the stack (stacks without empty
entries; an empty entry is a JS-falsiness quirk that also stops the
loop). -/
theorem popCloseGo_error_iff (sy : ShuntingYard) :
    ∀ (stack output : List String), "" ∉ stack →
      (popCloseGo sy output stack = Except.error ParseError.tooManyClosing ↔
        "(" ∉ stack) := by
  intro stack
  induction stack with
  | nil => intro output _; simp [popCloseGo]
  | cons op rest ih =>
      intro output h
      have hop : op ≠ "" := fun hh => h (by simp [hh])
      have hrest : "" ∉ rest := fun hh => h (List.mem_cons_of_mem _ hh)
      by_cases hp : op = "("
      · subst hp
        simp [popCloseGo, isLeftPara]
      · have hlp : ¬(isLeftPara op = true) := by simp [isLeftPara, hp]
        by_cases hf : sy.isFunction op
        · rw [popCloseGo, if_neg hop, if_neg hlp, if_pos hf]
          rw [ih output hrest]
          simp [Ne.symm hp]
        · rw [popCloseGo, if_neg hop, if_neg hlp, if_neg hf]
          rw [ih (output ++ [op]) hrest]
          simp [Ne.symm hp]

/-- The end-of-input drain raises the opening-parenthesis error exactly
when a left parenthesis remains on the stack. -/
theorem drainGo_error_iff :
    ∀ (stack output : List String),
      (drainGo output stack = Except.error ParseError.tooManyOpening ↔
        "(" ∈ stack) := by
  intro stack
  induction stack with
  | nil => intro output; simp [drainGo]
  | cons t rest ih =>
      intro output
      by_cases hp : t = "("
      · subst hp
        simp [drainGo, isLeftPara]
      · have hlp : ¬(isLeftPara t = true) := by simp [isLeftPara, hp]
        rw [drainGo, if_neg hlp, ih (output ++ [t])]
        simp [Ne.symm hp]

/-- The end-of-input drain succeeds when no left parenthesis remains. -/
theorem drainGo_isOk :
    ∀ (stack output : List String), "(" ∉ stack →
      ∃ out, drainGo output stack = Except.ok out := by
  intro stack
  induction stack with
  | nil => intro output _; exact ⟨output, rfl⟩
  | cons t rest ih =>
      intro output h
      have hp : t ≠ "(" := fun hh => h (by simp [hh])
      have hlp : ¬(isLeftPara t = true) := by simp [isLeftPara, hp]
      rw [drainGo, if_neg hlp]
      exact ih (output ++ [t]) (fun hh => h (List.mem_cons_of_mem _ hh))

/-- Folding a pending sign: the parser iteration with pending sign `sg`
on token `t` behaves exactly as the iteration with no pending sign on the
concatenated token. -/
theorem parseStep_fold (sy : ShuntingYard) (out stk : List String)
    (sg : String) (lt : Option String) (t : String) :
    parseStep sy ⟨out, stk, some sg, lt⟩ t =
      parseStep sy ⟨out, stk, none, lt⟩ (sg ++ t) := rfl

/-- Branch projection: a function-name token (that is not a left
parenthesis) is pushed onto the operator stack and nothing is emitted. -/
theorem parseStep_function (sy : ShuntingYard) (st : PState) (t : String)
    (hs : st.sign = none) (h1 : isLeftPara t = false)
    (h2 : sy.isFunction t = true) :
    parseStep sy st t = Except.ok ⟨st.output, t :: st.stack, none, some t⟩ := by
  obtain ⟨out, stk, sgn, lt⟩ := st
  cases hs
  simp only [parseStep, h1, h2, Bool.false_eq_true, if_false, if_true]

/-- Branch projection: an operator token arriving when the previous token
is empty or a left parenthesis is captured as the pending sign; the state
is otherwise untouched and `lastToken` is not updated. -/
theorem parseStep_signCapture (sy : ShuntingYard) (st : PState) (t : String)
    (thisOp : Operator) (hs : st.sign = none) (h1 : isLeftPara t = false)
    (h2 : sy.isFunction t = false) (h3 : isRightPara t = false)
    (hl : sy.operators.lookup t = some thisOp)
    (h4 : prevEmptyB st.lastToken = true) :
    parseStep sy st t = Except.ok ⟨st.output, st.stack, some t, st.lastToken⟩ := by
  obtain ⟨out, stk, sgn, lt⟩ := st
  cases hs
  simp only [parseStep, h1, h2, h3, Bool.false_eq_true, if_false, hl, h4, if_true]

/-- Branch projection: an operator token in the non-sign case pops the
maximal run of qualifying stack tops to the output queue and is then
pushed. -/
theorem parseStep_operator (sy : ShuntingYard) (st : PState) (t : String)
    (thisOp : Operator) (hs : st.sign = none) (h1 : isLeftPara t = false)
    (h2 : sy.isFunction t = false) (h3 : isRightPara t = false)
    (hl : sy.operators.lookup t = some thisOp)
    (h4 : prevEmptyB st.lastToken = false) :
    parseStep sy st t =
      Except.ok ⟨st.output ++ st.stack.takeWhile (shouldPop sy thisOp),
        t :: st.stack.dropWhile (shouldPop sy thisOp), none, some t⟩ := by
  obtain ⟨out, stk, sgn, lt⟩ := st
  cases hs
  simp only [parseStep, h1, h2, h3, h4, Bool.false_eq_true, if_false, hl]
  rw [popOpsGo_eq]

/-- Branch projection: a literal token starts a new output entry or is
appended to the last one, and the stack is untouched. -/
theorem parseStep_literal (sy : ShuntingYard) (st : PState) (t : String)
    (hs : st.sign = none) (h1 : isLeftPara t = false)
    (h2 : sy.isFunction t = false) (h3 : isRightPara t = false)
    (hl : sy.operators.lookup t = none) :
    parseStep sy st t =
      Except.ok ⟨if startNewB sy st.lastToken then st.output ++ [t]
        else appendLast st.output t, st.stack, none, some t⟩ := by
  obtain ⟨out, stk, sgn, lt⟩ := st
  cases hs
  by_cases h4 : startNewB sy lt
  · simp only [parseStep, h1, h2, h3, Bool.false_eq_true, if_false, hl, h4, if_true]
  · have h4f : startNewB sy lt = false := by simpa using h4
    simp only [parseStep, h1, h2, h3, h4f, Bool.false_eq_true, if_false, hl]

/-- Appending any string to one of the five default operator symbols never
yields a parenthesis token. -/
theorem default_sign_append_ne (sg : String)
    (hsg : sg = "+" ∨ sg = "-" ∨ sg = "*" ∨ sg = "/" ∨ sg = "^")
    (t : String) : sg ++ t ≠ "(" ∧ sg ++ t ≠ ")" := by
  have key : ∀ (c d : Char), c ≠ d → ∀ (u : String),
      String.mk [c] ++ u ≠ String.mk [d] := by
    intro c d hne u hc
    have hd := congrArg String.data hc
    rw [String.data_append] at hd
    simp only [List.cons_append, List.nil_append] at hd
    injection hd with hd1 _
    exact hne hd1
  rcases hsg with h | h | h | h | h <;> subst h <;>
    exact ⟨key _ _ (by decide) t, key _ _ (by decide) t⟩

/-- Invariant for running the default instance on parenthesis-free
tokens: no left parenthesis sits on the operator stack, and any pending
sign is a registered operator symbol. -/
def NoParenInv (st : PState) : Prop :=
  "(" ∉ st.stack ∧
    ∀ sg, st.sign = some sg → ∃ op, defaultSY.operators.lookup sg = some op

/-- On the default instance, one parser iteration on a token that is not
a parenthesis cannot fail and preserves the invariant. -/
theorem noParen_step (st : PState) (t : String) (hInv : NoParenInv st)
    (ht1 : t ≠ "(") (ht2 : t ≠ ")") :
    ∃ st2, parseStep defaultSY st t = Except.ok st2 ∧ NoParenInv st2 := by
  obtain ⟨out, stk, sgn, lt⟩ := st
  obtain ⟨hstk, hsgn⟩ := hInv
  -- reduce to the no-pending-sign case with a parenthesis-free token
  suffices key : ∀ (tok : String), tok ≠ "(" → tok ≠ ")" →
      ∃ st2, parseStep defaultSY ⟨out, stk, none, lt⟩ tok = Except.ok st2 ∧
        NoParenInv st2 by
    cases hsg : sgn with
    | none => exact key t ht1 ht2
    | some sg =>
        have hmem := hsgn sg hsg
        obtain ⟨op, hop⟩ := hmem
        have hne := default_sign_append_ne sg (default_lookup_mem hop) t
        rw [parseStep_fold]
        exact key (sg ++ t) hne.1 hne.2
  intro tok htok1 htok2
  have h1 : isLeftPara tok = false := by simp [isLeftPara, htok1]
  have h2 : defaultSY.isFunction tok = false := rfl
  have h3 : isRightPara tok = false := by simp [isRightPara, htok2]
  cases hl : defaultSY.operators.lookup tok with
  | some thisOp =>
      by_cases h4 : prevEmptyB lt
      · refine ⟨_, parseStep_signCapture _ _ _ _ rfl h1 h2 h3 hl h4, ?_⟩
        refine ⟨hstk, ?_⟩
        intro sg hsg
        simp only at hsg
        cases hsg
        exact ⟨thisOp, hl⟩
      · have h4f : prevEmptyB lt = false := by simpa using h4
        refine ⟨_, parseStep_operator _ _ _ _ rfl h1 h2 h3 hl h4f, ?_⟩
        refine ⟨?_, by intro sg hsg; simp at hsg⟩
        intro hmem
        rcases List.mem_cons.mp hmem with hmem | hmem
        · exact htok1 hmem.symm
        · exact hstk ((List.dropWhile_sublist _).mem hmem)
  | none =>
      refine ⟨_, parseStep_literal _ _ _ rfl h1 h2 h3 hl, ?_⟩
      exact ⟨hstk, by intro sg hsg; simp at hsg⟩

/-- On the default instance, the parser loop over parenthesis-free tokens
cannot fail and preserves the invariant. -/
theorem noParen_loop :
    ∀ (ts : List String) (st : PState), NoParenInv st →
      (∀ t ∈ ts, t ≠ "(" ∧ t ≠ ")") →
      ∃ st2, parseLoop defaultSY st ts = Except.ok st2 ∧ NoParenInv st2 := by
  intro ts
  induction ts with
  | nil => intro st hInv _; exact ⟨st, rfl, hInv⟩
  | cons t ts ih =>
      intro st hInv hts
      obtain ⟨st2, hstep, hInv2⟩ :=
        noParen_step st t hInv (hts t (by simp)).1 (hts t (by simp)).2
      obtain ⟨st3, hloop, hInv3⟩ :=
        ih st2 hInv2 (fun u hu => hts u (List.mem_cons_of_mem _ hu))
      refine ⟨st3, ?_, hInv3⟩
      rw [parseLoop, hstep]
      exact hloop

/-! ### Claims -/

set_option maxRecDepth 8000 in
/-- C1: when a non-sign-folded token is a registered operator, `parse`
pops the operator stack to the output queue while the stack is non-empty
and its top is a registered operator and either (the incoming operator is
left-associative and its precedence is at most the top's) or (its
precedence is strictly below the top's), then pushes the incoming
operator; with the default table, `parse("3+4*2")` is
`["3","4","2","*","+"]` and `resolve("3+4*2")` is `11`. -/
theorem c1_operator_precedence_pops :
    (∀ (sy : ShuntingYard) (st : PState) (t : String) (thisOp : Operator),
      st.sign = none → isLeftPara t = false → sy.isFunction t = false →
      isRightPara t = false → sy.operators.lookup t = some thisOp →
      prevEmptyB st.lastToken = false →
      parseStep sy st t =
        Except.ok ⟨st.output ++ st.stack.takeWhile (shouldPop sy thisOp),
          t :: st.stack.dropWhile (shouldPop sy thisOp), none, some t⟩) ∧
    (∀ (sy : ShuntingYard) (thisOp topOp : Operator) (s : String),
      sy.operators.lookup s = some topOp →
      shouldPop sy thisOp s =
        ((thisOp.leftAssoc && thisOp.lessThenEqual topOp) || thisOp.lessThen topOp)) ∧
    (∀ (sy : ShuntingYard) (thisOp : Operator) (s : String),
      sy.operators.lookup s = none → shouldPop sy thisOp s = false) ∧
    defaultSY.parse (Input.ofString "3+4*2") = Except.ok ["3", "4", "2", "*", "+"] ∧
    defaultSY.resolve (Input.ofString "3+4*2") = Except.ok (Value.num 11) := by
  refine ⟨parseStep_operator, ?_, ?_, rfl, by with_unfolding_all decide⟩
  · intro sy thisOp topOp s h
    simp [shouldPop, h]
  · intro sy thisOp s h
    simp [shouldPop, h]

/-- Witness for C1: the incoming `*` with `+` on the stack, and the pop
condition on that pair. -/
theorem c1_witness :
    parseStep defaultSY ⟨["3", "4"], ["+"], none, some "4"⟩ "*" =
      Except.ok ⟨["3", "4"] ++ (["+"] : List String).takeWhile (shouldPop defaultSY opMul),
        "*" :: (["+"] : List String).dropWhile (shouldPop defaultSY opMul),
        none, some "*"⟩ ∧
    shouldPop defaultSY opMul "+" =
      ((opMul.leftAssoc && opMul.lessThenEqual opAdd) || opMul.lessThen opAdd) :=
  ⟨c1_operator_precedence_pops.1 defaultSY ⟨["3", "4"], ["+"], none, some "4"⟩
      "*" opMul rfl rfl rfl rfl rfl rfl,
   c1_operator_precedence_pops.2.1 defaultSY opMul opAdd "+" rfl⟩

/-- C2 fails as stated: with `+` registered before `++`, the scan at
`"++1"` matches `+` (the first registered prefix), not the longest
registered prefix `++`. -/
theorem c2_counterexample :
    matchToken (opTokens cfg2) '+' ['+', '1'] = "+" ∧
    specLongestMatch (opTokens cfg2) ['+', '+', '1'] = some "++" ∧
    ("+" : String) ≠ "++" ∧
    tokenize cfg2 (Input.ofString "++1") = ["+", "+", "1"] :=
  ⟨rfl, rfl, by decide, rfl⟩

/-- C2 (amended): at each scan position the current token is the first
registered operator or function symbol, in operator-then-function
registration order, that is a prefix of the remaining input; if no symbol
matches, it is the single character at that position (the `getD`
default). -/
theorem c2_first_match :
    (∀ (opts : List String) (c : Char) (cs : List Char),
      matchToken opts c cs =
        (opts.find? (fun nit => nit.data.isPrefixOf (c :: cs))).getD
          (String.mk [c])) ∧
    tokenize defaultSY (Input.ofString "3+4*2") = ["3", "+", "4", "*", "2"] := by
  refine ⟨?_, rfl⟩
  intro opts c cs
  exact matchTokenGo_eq (c :: cs) opts (String.mk [c])

/-- C3 fails as stated: a function marker still on the stack when the
input ends is emitted to the output queue by the final drain, so the
marker `f` shows up in `parse("f(1)")`. -/
theorem c3_counterexample :
    cfgF.isFunction "f" = true ∧
    cfgF.parse (Input.ofString "f(1)") = Except.ok ["1", "f"] ∧
    "f" ∈ ["1", "f"] :=
  ⟨rfl, rfl, by simp⟩

/-- C3 (amended): a registered function-name token is pushed onto the
operator stack as a scope marker and emits nothing at that moment; a
function marker popped while handling a right parenthesis is discarded
without emission; but a marker still on the stack at end of input is
emitted by the final drain. -/
theorem c3_function_markers :
    (∀ (sy : ShuntingYard) (st : PState) (t : String), st.sign = none →
      isLeftPara t = false → sy.isFunction t = true →
      parseStep sy st t = Except.ok ⟨st.output, t :: st.stack, none, some t⟩) ∧
    (∀ (sy : ShuntingYard) (pre output rest : List String),
      "(" ∉ pre → "" ∉ pre →
      popCloseGo sy output (pre ++ "(" :: rest) =
        Except.ok (output ++ pre.filter (fun t => !(sy.isFunction t)), rest)) ∧
    cfgF.parse (Input.ofString "(f(1))") = Except.ok ["1"] ∧
    cfgF.parse (Input.ofString "f(1)") = Except.ok ["1", "f"] :=
  ⟨parseStep_function,
   fun sy pre output rest h1 h2 => popCloseGo_split sy pre output rest h1 h2,
   rfl, rfl⟩

/-- Witness for C3 (amended): pushing the marker `f`, and a
right-parenthesis pop across the marker `f`, which is dropped. -/
theorem c3_witness :
    parseStep cfgF ⟨[], ["("], none, some "("⟩ "f" =
      Except.ok ⟨[], ["f", "("], none, some "f"⟩ ∧
    popCloseGo cfgF ["1"] (["f"] ++ "(" :: []) =
      Except.ok (["1"] ++ ["f"].filter (fun t => !(cfgF.isFunction t)), []) :=
  ⟨c3_function_markers.1 cfgF ⟨[], ["("], none, some "("⟩ "f" rfl rfl rfl,
   c3_function_markers.2.1 cfgF ["f"] ["1"] [] (by decide) (by decide)⟩

/-- C4: `parse` fails with a syntax error exactly on unbalanced
parentheses, distinguishing the kinds: the right-parenthesis pop loop
raises the closing-parenthesis error precisely when no left parenthesis
is on the stack (stacks without the empty-entry quirk), the end-of-input
drain raises the opening-parenthesis error precisely when a left
parenthesis remains, parenthesis-free default-table inputs always parse,
and `parse("1+2)")` / `parse("(1+2")` raise the respective kinds. -/
theorem c4_unbalanced_parens :
    defaultSY.parse (Input.ofString "1+2)") = Except.error ParseError.tooManyClosing ∧
    defaultSY.parse (Input.ofString "(1+2") = Except.error ParseError.tooManyOpening ∧
    (∀ (sy : ShuntingYard) (output stack : List String), "" ∉ stack →
      (popCloseGo sy output stack = Except.error ParseError.tooManyClosing ↔
        "(" ∉ stack)) ∧
    (∀ (output stack : List String),
      drainGo output stack = Except.error ParseError.tooManyOpening ↔
        "(" ∈ stack) ∧
    (∀ (ts : List String), "(" ∉ ts → ")" ∉ ts →
      ∃ out, defaultSY.parse (Input.ofTokens ts) = Except.ok out) := by
  refine ⟨rfl, rfl, ?_, ?_, ?_⟩
  · intro sy output stack h
    exact popCloseGo_error_iff sy stack output h
  · intro output stack
    exact drainGo_error_iff stack output
  · intro ts h1 h2
    have hts : ∀ t ∈ ts.filter (fun t => t != " "), t ≠ "(" ∧ t ≠ ")" := by
      intro t ht
      have hmem := List.mem_of_mem_filter ht
      exact ⟨fun hh => h1 (hh ▸ hmem), fun hh => h2 (hh ▸ hmem)⟩
    obtain ⟨st2, hloop, hInv⟩ := noParen_loop (ts.filter (fun t => t != " "))
      ⟨[], [], none, none⟩ ⟨by simp, by intro sg hsg; simp at hsg⟩ hts
    obtain ⟨out, hdrain⟩ := drainGo_isOk st2.stack st2.output hInv.1
    refine ⟨out, ?_⟩
    rw [ShuntingYard.parse]
    simp only [tokenize]
    rw [hloop]
    exact hdrain

/-- Witness for C4: the two pop-loop characterizations and a concrete
parenthesis-free pre-tokenized parse. -/
theorem c4_witness :
    (popCloseGo defaultSY [] ["+"] = Except.error ParseError.tooManyClosing ↔
      "(" ∉ (["+"] : List String)) ∧
    (drainGo [] ["("] = Except.error ParseError.tooManyOpening ↔
      "(" ∈ (["("] : List String)) ∧
    (∃ out, defaultSY.parse (Input.ofTokens ["1", "+", "2"]) = Except.ok out) :=
  ⟨c4_unbalanced_parens.2.2.1 defaultSY [] ["+"] (by decide),
   c4_unbalanced_parens.2.2.2.1 [] ["("],
   c4_unbalanced_parens.2.2.2.2 ["1", "+", "2"] (by decide) (by decide)⟩

set_option maxRecDepth 8000 in
/-- C5: a token with a descriptor removes exactly `arity` operands, as the
suffix of the stack in original left-to-right order, applies the behavior
to that list and pushes the single result; with the default table,
`resolve("8-3-2")` is `3` and `resolve("2^3^2")` is `512`. -/
theorem c5_arity_and_order :
    (∀ (sy : ShuntingYard) (t : String) (op : Operator) (stack : List Value),
      opLookup sy t = some op → 1 ≤ op.params → op.params ≤ stack.length →
      resolveStep sy stack t =
          stack.take (stack.length - op.params) ++
            [op.method (stack.drop (stack.length - op.params))] ∧
        (stack.drop (stack.length - op.params)).length = op.params ∧
        List.IsSuffix (stack.drop (stack.length - op.params)) stack) ∧
    defaultSY.resolve (Input.ofString "8-3-2") = Except.ok (Value.num 3) ∧
    defaultSY.resolve (Input.ofString "2^3^2") = Except.ok (Value.num 512) := by
  refine ⟨?_, by with_unfolding_all decide, by with_unfolding_all decide⟩
  intro sy t op stack hl hp1 hp2
  have hne : op.params ≠ 0 := by omega
  refine ⟨?_, ?_, List.drop_suffix _ _⟩
  · simp only [resolveStep, hl]
    rw [if_neg hne]
  · rw [List.length_drop]
    omega

/-- Witness for C5: the subtraction descriptor applied to a two-element
stack. -/
theorem c5_witness :
    resolveStep defaultSY [Value.num 8, Value.num 3] "-" =
        ([Value.num 8, Value.num 3] : List Value).take
            (([Value.num 8, Value.num 3] : List Value).length - opSub.params) ++
          [opSub.method (([Value.num 8, Value.num 3] : List Value).drop
            (([Value.num 8, Value.num 3] : List Value).length - opSub.params))] ∧
      (([Value.num 8, Value.num 3] : List Value).drop
          (([Value.num 8, Value.num 3] : List Value).length - opSub.params)).length =
        opSub.params ∧
      List.IsSuffix
        (([Value.num 8, Value.num 3] : List Value).drop
          (([Value.num 8, Value.num 3] : List Value).length - opSub.params))
        [Value.num 8, Value.num 3] :=
  c5_arity_and_order.1 defaultSY "-" opSub [Value.num 8, Value.num 3]
    rfl (by decide) (by decide)

/-- C6 fails as stated: with `+` registered both as an operator and as a
function, the claim's condition holds at the start of input (previous
token empty, `+` a registered operator), yet no folding fires — the
function branch is checked first and pushes the token as a marker. -/
theorem c6_counterexample :
    cfgBoth.isOperator "+" = true ∧
    (⟨[], [], none, none⟩ : PState).lastToken = none ∧
    parseStep cfgBoth ⟨[], [], none, none⟩ "+" =
      Except.ok ⟨[], ["+"], none, some "+"⟩ ∧
    (Except.ok (⟨[], ["+"], none, some "+"⟩ : PState) :
        Except ParseError PState) ≠
      Except.ok ⟨[], [], some "+", none⟩ ∧
    cfgBoth.parse (Input.ofTokens ["+", "1"]) = Except.ok ["1", "+"] :=
  ⟨rfl, rfl, rfl, by decide, rfl⟩

set_option maxRecDepth 8000 in
/-- C6 (amended): sign folding fires exactly when the previous emitted
token is empty (start of input, or an empty token — both falsy in JS) or
a left parenthesis and the current token is a registered operator symbol
that is not a parenthesis token and not a registered function name; the
captured sign is concatenated onto the next token; and
`resolve("-5+3")` is `-2`. -/
theorem c6_sign_folding :
    (∀ (sy : ShuntingYard) (st : PState) (t : String), st.sign = none →
      (parseStep sy st t =
          Except.ok ⟨st.output, st.stack, some t, st.lastToken⟩ ↔
        (prevEmptyB st.lastToken = true ∧ isLeftPara t = false ∧
          sy.isFunction t = false ∧ isRightPara t = false ∧
          sy.isOperator t = true))) ∧
    (∀ (sy : ShuntingYard) (out stk : List String) (sg : String)
        (lt : Option String) (t : String),
      parseStep sy ⟨out, stk, some sg, lt⟩ t =
        parseStep sy ⟨out, stk, none, lt⟩ (sg ++ t)) ∧
    defaultSY.resolve (Input.ofString "-5+3") = Except.ok (Value.num (-2)) := by
  refine ⟨?_, parseStep_fold, by with_unfolding_all decide⟩
  intro sy st t hs
  obtain ⟨out, stk, sgn, lt⟩ := st
  cases hs
  constructor
  · intro heq
    simp only [parseStep] at heq
    by_cases h1 : isLeftPara t = true
    · rw [if_pos h1] at heq
      simp [PState.mk.injEq] at heq
    rw [if_neg h1] at heq
    by_cases h2 : sy.isFunction t = true
    · rw [if_pos h2] at heq
      simp [PState.mk.injEq] at heq
    rw [if_neg h2] at heq
    by_cases h3 : isRightPara t = true
    · rw [if_pos h3] at heq
      cases hpc : popCloseGo sy out stk with
      | error e => rw [hpc] at heq; simp at heq
      | ok p => rw [hpc] at heq; simp [PState.mk.injEq] at heq
    rw [if_neg h3] at heq
    cases hl : sy.operators.lookup t with
    | none =>
        rw [hl] at heq
        by_cases h4 : startNewB sy lt = true
        · simp [h4, PState.mk.injEq] at heq
        · simp [h4, PState.mk.injEq] at heq
    | some thisOp =>
        rw [hl] at heq
        by_cases h4 : prevEmptyB lt = true
        · exact ⟨h4, by simpa using h1, by simpa using h2, by simpa using h3,
            by simp [ShuntingYard.isOperator, hl]⟩
        · simp [h4, PState.mk.injEq] at heq
  · rintro ⟨h4, h1, h2, h3, h5⟩
    have hop : ∃ thisOp, sy.operators.lookup t = some thisOp := by
      rcases hl : sy.operators.lookup t with _ | thisOp
      · rw [ShuntingYard.isOperator, hl] at h5
        simp at h5
      · exact ⟨thisOp, rfl⟩
    obtain ⟨thisOp, hl⟩ := hop
    exact parseStep_signCapture sy ⟨out, stk, none, lt⟩ t thisOp rfl h1 h2 h3 hl h4

/-- Witness for C6 (amended): at the start of input, the incoming `-` of
the default table is captured as the pending sign. -/
theorem c6_witness :
    parseStep defaultSY ⟨[], [], none, none⟩ "-" =
        Except.ok ⟨[], [], some "-", none⟩ ↔
      (prevEmptyB none = true ∧ isLeftPara "-" = false ∧
        defaultSY.isFunction "-" = false ∧ isRightPara "-" = false ∧
        defaultSY.isOperator "-" = true) :=
  c6_sign_folding.1 defaultSY ⟨[], [], none, none⟩ "-" rfl

/-- C7 fails as stated: the single-space discard is not skipped for
pre-tokenized input — the element `" "` is dropped, so the literals on
either side are concatenated; treating every element as an opaque token
(the spec-modelled reading) would keep the space inside the literal. -/
theorem c7_counterexample :
    defaultSY.parse (Input.ofTokens ["1", " ", "2"]) = Except.ok ["12"] ∧
    specParsePretokenized defaultSY ["1", " ", "2"] = Except.ok ["1 2"] ∧
    (["12"] : List String) ≠ ["1 2"] :=
  ⟨rfl, rfl, by decide⟩

/-- C7 (amended): pre-tokenized entry skips symbol matching and feeds the
same parser state machine, treating each element as one opaque token,
except that elements equal to a single space are still discarded. -/
theorem c7_pretokenized :
    (∀ (sy : ShuntingYard) (ts : List String),
      sy.parse (Input.ofTokens ts) =
        specParsePretokenized sy (ts.filter (fun t => t != " "))) ∧
    (∀ (sy : ShuntingYard) (ts : List String),
      tokenize sy (Input.ofTokens ts) = ts.filter (fun t => t != " ")) ∧
    defaultSY.parse (Input.ofTokens ["10", "+", "2"]) = Except.ok ["10", "2", "+"] :=
  ⟨fun _ _ => rfl, fun _ _ => rfl, rfl⟩

/-- C8 fails as stated: with a declared arity exceeding the operands
available, no stack-underflow failure surfaces — the splice removes all
available operands and the behavior is applied to the shorter argument
list (JS pads the missing parameter with `undefined`), yielding NaN. -/
theorem c8_counterexample :
    resolveStep defaultSY [Value.num 5] "-" = [opSub.method [Value.num 5]] ∧
    opSub.method [Value.num 5] = Value.nan ∧
    defaultSY.resolveRpn ["5", "-"] = Value.nan :=
  ⟨rfl, rfl, by with_unfolding_all decide⟩

/-- C8 (amended): when a descriptor's declared arity exceeds the operands
available, `splice(-arity)` removes the whole stack, the behavior is
applied to that shorter list (missing parameters behave as `undefined`),
and the result — NaN for the default numeric operators — is pushed;
evaluation completes without any failure. -/
theorem c8_short_stack :
    (∀ (sy : ShuntingYard) (t : String) (op : Operator) (stack : List Value),
      opLookup sy t = some op → stack.length < op.params →
      resolveStep sy stack t = [op.method stack]) ∧
    defaultSY.resolveRpn ["5", "-"] = Value.nan ∧
    defaultSY.resolveRpn ["-"] = Value.nan := by
  refine ⟨?_, by with_unfolding_all decide, by with_unfolding_all decide⟩
  intro sy t op stack hl hlen
  have hne : op.params ≠ 0 := by omega
  have h0 : stack.length - op.params = 0 := by omega
  simp only [resolveStep, hl]
  rw [if_neg hne, h0]
  simp

/-- Witness for C8 (amended): the binary `-` applied to a one-element
stack. -/
theorem c8_witness :
    resolveStep defaultSY [Value.num 5] "-" = [opSub.method [Value.num 5]] :=
  c8_short_stack.1 defaultSY "-" opSub [Value.num 5] rfl (by decide)

/-- C9: a token matching no registered operator or function is pushed as
a raw string when the raw-literal flag is set and as its floating-point
parse otherwise, an unparseable token yielding the NaN sentinel; the
literal branch is a total push, so no error can be raised. -/
theorem c9_literal_tokens :
    (∀ (sy : ShuntingYard) (stack : List Value) (t : String),
      sy.operators.lookup t = none → sy.functions.lookup t = none →
      resolveStep sy stack t =
        stack ++ [if sy.parse_raw then Value.str t else jsParseFloat t]) ∧
    jsParseFloat "abc" = Value.nan ∧
    rawSY.resolveRpn ["hi"] = Value.str "hi" ∧
    defaultSY.resolveRpn ["abc"] = Value.nan := by
  refine ⟨?_, by decide, rfl, by decide⟩
  intro sy stack t h1 h2
  simp only [resolveStep, opLookup, h1, h2]

/-- Witness for C9: the unregistered token `abc` on the default instance. -/
theorem c9_witness :
    resolveStep defaultSY [] "abc" =
      [] ++ [if defaultSY.parse_raw then Value.str "abc" else jsParseFloat "abc"] :=
  c9_literal_tokens.1 defaultSY [] "abc" rfl rfl

/-- C10: `resolveRpn` returns the bottom-most element of the final
operand stack with no well-formedness check — the undefined value for an
empty stack, and the earliest-pushed remaining value (the rest silently
discarded) for a malformed sequence that leaves several. -/
theorem c10_stack_bottom :
    (∀ (sy : ShuntingYard) (arr : List String) (v : Value) (rest : List Value),
      rpnStack sy arr = v :: rest → sy.resolveRpn arr = v) ∧
    defaultSY.resolveRpn [] = Value.undef ∧
    rpnStack defaultSY ["1", "2", "3"] = [Value.num 1, Value.num 2, Value.num 3] ∧
    defaultSY.resolveRpn ["1", "2", "3"] = Value.num 1 := by
  refine ⟨?_, rfl, by with_unfolding_all decide, by with_unfolding_all decide⟩
  intro sy arr v rest h
  rw [ShuntingYard.resolveRpn, h]
  rfl

/-- Witness for C10: a two-literal sequence on the raw-literal instance
leaves two stack entries and the first is returned. -/
theorem c10_witness : rawSY.resolveRpn ["a", "b"] = Value.str "a" :=
  c10_stack_bottom.1 rawSY ["a", "b"] (Value.str "a") [Value.str "b"] rfl

end ShuntingYardJS
